import Mathlib

/-!
Shallow embedding of the vote aggregation and ranking subsystem of the
CelebrityVoting repository (Express + Drizzle/PostgreSQL).

The embedding follows the source:
  * the Drizzle schema (`shared/schema.ts`, mirrored in the SQL migration):
    tables `posts`, `actions`, `votes`, `rate_limits`;
  * `server/storage.ts` (`DatabaseStorage`): `createVote`, `getPostVotes`,
    `getLeaderboard`, `getTrendingPosts`, `checkRateLimit`,
    `incrementRateLimit`, `deletePost`, `getActions`, `getPostById`,
    `getActionById`;
  * `server/routes.ts`: the `POST /api/vote/:actionId` handler and the
    startup routine `initializeDefaultActions`.

Timestamps are modelled as `Int` milliseconds since the epoch (JS
`Date.now()`). Row ids (`gen_random_uuid()`) are supplied by the
environment as `String` parameters. SQL `ORDER BY ... DESC` is modelled
as a deterministic stable insertion sort by the ordering key.
-/

namespace CelebrityVoting

/-- Schema enum `status` with values pending, approved, rejected. -/
inductive Status where
  | pending
  | approved
  | rejected
deriving DecidableEq, Repr

/-- A row of the `posts` table. -/
structure Post where
  id : String
  name : String
  category : String
  imageUrl : String
  status : Status
  createdAt : Int
deriving DecidableEq, Repr

/-- A row of the `actions` table (`name` is UNIQUE in the schema). -/
structure Action where
  id : String
  name : String
  approved : Bool
  isDefault : Bool
  createdAt : Int
deriving DecidableEq, Repr

/-- A row of the `votes` table: `id, post_id, action_id, ip_address,
created_at` — these are the only columns; there is no device column. -/
structure Vote where
  id : String
  postId : String
  actionId : String
  ipAddress : String
  createdAt : Int
deriving DecidableEq, Repr

/-- A row of the `rate_limits` table. -/
structure RateLimitRow where
  id : String
  ipAddress : String
  actionType : String
  count : Int
  windowStart : Int
deriving DecidableEq, Repr

/-- The database state: the four tables the voting core touches. -/
structure DB where
  posts : List Post
  actions : List Action
  votes : List Vote
  rateLimits : List RateLimitRow
deriving DecidableEq, Repr

/-- Schema `insertVoteSchema = createInsertSchema(votes).omit(id, createdAt)`:
the insert payload carries exactly `postId`, `actionId`, `ipAddress`.
A `deviceId` field passed by the route is not part of the schema and is
dropped before the row is written. -/
structure InsertVote where
  postId : String
  actionId : String
  ipAddress : String
deriving DecidableEq, Repr

/-- SQL `ORDER BY count DESC` on grouped rows: a row may precede another
iff its count is at least the count of the other. Ties keep a stable order in this
deterministic model. -/
def countDescRel {α : Type} (x y : α × Nat) : Prop := y.2 ≤ x.2

instance {α : Type} : DecidableRel (countDescRel (α := α)) :=
  fun x y => inferInstanceAs (Decidable (y.2 ≤ x.2))

instance {α : Type} : IsTotal (α × Nat) countDescRel :=
  ⟨fun x y => (le_total y.2 x.2).imp id id⟩

instance {α : Type} : IsTrans (α × Nat) countDescRel :=
  ⟨fun _ _ _ h1 h2 => le_trans h2 h1⟩

/-- Sort order `orderBy(desc(actions.isDefault), desc(actions.createdAt))`:
default actions first, then newest first. -/
def actionOrdRel (a b : Action) : Prop :=
  (b.isDefault = true → a.isDefault = true) ∧
    (a.isDefault = b.isDefault → b.createdAt ≤ a.createdAt)

instance : DecidableRel actionOrdRel := fun _ _ =>
  inferInstanceAs (Decidable (_ ∧ _))

/-- Number of `votes` rows with the given `post_id` and `action_id`. -/
def countVotesFor (db : DB) (p a : String) : Nat :=
  db.votes.countP (fun v => decide (v.postId = p ∧ v.actionId = a))

/-- Number of `votes` rows for a post with `created_at ≥ cutoff`
(any action). -/
def countRecentVotes (db : DB) (p : String) (cutoff : Int) : Nat :=
  db.votes.countP (fun v => decide (v.postId = p ∧ cutoff ≤ v.createdAt))

/-- Embeds `DatabaseStorage.getPostById`: first `posts` row with the id. -/
def getPostById (db : DB) (id : String) : Option Post :=
  db.posts.find? (fun p => decide (p.id = id))

/-- Embeds `DatabaseStorage.getActionById`: first `actions` row with the id. -/
def getActionById (db : DB) (id : String) : Option Action :=
  db.actions.find? (fun a => decide (a.id = id))

/-- Embeds `DatabaseStorage.getActions(approved)`: filter by the `approved`
flag, ordered by `desc(isDefault), desc(createdAt)`. -/
def getActions (db : DB) (approved : Bool) : List Action :=
  List.insertionSort actionOrdRel
    (db.actions.filter (fun a => a.approved == approved))

/-- Embeds `DatabaseStorage.createVote`: an unconditional
`db.insert(votes).values(vote).returning()` — no duplicate check, no
uniqueness constraint (`votes_unique_idx` is a plain, non-unique index
in the schema and the migration). -/
def createVote (db : DB) (v : InsertVote) (id : String) (now : Int) :
    Vote × DB :=
  let newVote : Vote := ⟨id, v.postId, v.actionId, v.ipAddress, now⟩
  (newVote, { db with votes := db.votes ++ [newVote] })

/-- Embeds `DatabaseStorage.getPostVotes`: `votes` INNER JOIN `actions` on
`votes.actionId = actions.id`, WHERE `votes.postId = postId`, GROUP BY
`actions.id`, count, ORDER BY count DESC. Note: no filter on
`actions.approved`. Groups exist only for actions with at least one
joined vote row. -/
def getPostVotes (db : DB) (postId : String) : List (Action × Nat) :=
  List.insertionSort countDescRel
    ((db.actions.map (fun a => (a, countVotesFor db postId a.id))).filter
      (fun x => 0 < x.2))

/-- Embeds `DatabaseStorage.deletePost` together with the
`ON DELETE cascade` on `votes.post_id` (migration
`votes_post_id_posts_id_fk`): removing a post removes its vote rows. -/
def deletePost (db : DB) (id : String) : DB :=
  { db with
    posts := db.posts.filter (fun p => decide (¬p.id = id)),
    votes := db.votes.filter (fun v => decide (¬v.postId = id)) }

/-- Embeds `DatabaseStorage.getLeaderboard`: `posts` INNER JOIN `votes` WHERE
`posts.status = approved` and `votes.actionId = actionId`, GROUP BY
`posts.id`, ORDER BY count DESC, LIMIT `limit`. Groups exist only for
posts with at least one matching vote. -/
def rankedByAction (db : DB) (actionId : String) : List (Post × Nat) :=
  List.insertionSort countDescRel
    (((db.posts.filter (fun p => decide (p.status = Status.approved))).map
        (fun p => (p, countVotesFor db p.id actionId))).filter
      (fun x => 0 < x.2))

/-- LIMIT clause of the leaderboard query applied to the ranked list. -/
def getLeaderboard (db : DB) (actionId : String) (limit : Nat) :
    List (Post × Nat) :=
  (rankedByAction db actionId).take limit

/-- Embeds `DatabaseStorage.getTrendingPosts`: cutoff
`Date.now() - hours * 60 * 60 * 1000`; `posts` INNER JOIN `votes` WHERE
`posts.status = approved` and `votes.createdAt ≥ cutoff`, GROUP BY
`posts.id`, ORDER BY count DESC, LIMIT `limit`. -/
def rankedTrending (db : DB) (cutoff : Int) : List (Post × Nat) :=
  List.insertionSort countDescRel
    (((db.posts.filter (fun p => decide (p.status = Status.approved))).map
        (fun p => (p, countRecentVotes db p.id cutoff))).filter
      (fun x => 0 < x.2))

/-- Cutoff computation and LIMIT clause of the trending query. -/
def getTrendingPosts (db : DB) (hours : Int) (limit : Nat) (now : Int) :
    List (Post × Nat) :=
  (rankedTrending db (now - hours * 3600000)).take limit

/-- Number of `rate_limits` rows for `(ip, actionType)` with
`window_start ≥ now - windowMinutes * 60 * 1000`. -/
def inWindowEvents (db : DB) (ip cat : String) (windowMinutes now : Int) :
    Nat :=
  db.rateLimits.countP (fun r =>
    decide (r.ipAddress = ip ∧ r.actionType = cat ∧
      now - windowMinutes * 60000 ≤ r.windowStart))

/-- Embeds `DatabaseStorage.checkRateLimit`: counts in-window rows for
`(ipAddress, actionType)` and admits iff that count is strictly below
`limit`. -/
def checkRateLimit (db : DB) (ip cat : String) (limit : Nat)
    (windowMinutes now : Int) : Bool :=
  decide ((db.rateLimits.filter (fun r =>
    decide (r.ipAddress = ip ∧ r.actionType = cat ∧
      now - windowMinutes * 60000 ≤ r.windowStart))).length < limit)

/-- Embeds `DatabaseStorage.incrementRateLimit`: inserts a fresh row with
`count: 1`; `window_start` takes the column default `now()`. Rows are
never merged or updated in place. -/
def incrementRateLimit (db : DB) (ip cat : String) (id : String)
    (now : Int) : DB :=
  { db with rateLimits := db.rateLimits ++ [⟨id, ip, cat, 1, now⟩] }

/-- The object the vote route hands to `storage.createVote`:
`{ postId, actionId, ipAddress, deviceId }`. -/
structure VotePayload where
  postId : String
  actionId : String
  ipAddress : String
  deviceId : String
deriving DecidableEq, Repr

/-- The Drizzle `insert(votes).values(...)` writes only the columns of
the table; the `votes` table has no device column and `insertVoteSchema`
admits exactly `postId`, `actionId`, `ipAddress`, so the `deviceId`
field of the payload is dropped before the row is written. -/
def VotePayload.toRow (p : VotePayload) : InsertVote :=
  ⟨p.postId, p.actionId, p.ipAddress⟩

/-- Outcome of `POST /api/vote/:actionId` after captcha passes. Both
rejection branches answer HTTP 404 with a message; `notFound` carries
the message of that 404 response. -/
inductive VoteOutcome where
  | notFound (msg : String)
  | created (v : Vote)
deriving DecidableEq, Repr

/-- Message of the 404 answer when the post is missing or unapproved. -/
def postNotFoundMsg : String := "Post not found or not approved"

/-- Message of the 404 answer when the action is missing or unapproved. -/
def actionNotFoundMsg : String := "Action not found or not approved"

/-- The `POST /api/vote/:actionId` handler after captcha verification
succeeds (`routes.ts`): fetch the post and the action; `404` if the
post is missing or not approved; `404` if the action is missing or not
approved; otherwise insert the vote and return it. Per the source
comment, repeated votes are allowed: no toggling, no rate limiting,
and `deviceId` plays no part in any decision. -/
def submitVote (db : DB) (postId actionId ipAddress deviceId : String)
    (voteId : String) (now : Int) : VoteOutcome × DB :=
  let payload : VotePayload := ⟨postId, actionId, ipAddress, deviceId⟩
  match getPostById db postId with
  | none => (VoteOutcome.notFound postNotFoundMsg, db)
  | some post =>
    if post.status ≠ Status.approved then
      (VoteOutcome.notFound postNotFoundMsg, db)
    else
      match getActionById db actionId with
      | none => (VoteOutcome.notFound actionNotFoundMsg, db)
      | some action =>
        if action.approved ≠ true then
          (VoteOutcome.notFound actionNotFoundMsg, db)
        else
          let r := createVote db payload.toRow voteId now
          (VoteOutcome.created r.1, r.2)

/-- The five seeded action names (`routes.ts`). -/
def defaultActionNames : List String := ["slap", "hug", "kiss", "love", "hate"]

/-- Embeds `db.insert(actions).values(name, approved: true, isDefault: true)`
under the `actions_name_unique` constraint: the insert throws iff a row
with the same name already exists. -/
def insertActionRow (db : DB) (a : Action) : Option DB :=
  if ∃ b ∈ db.actions, b.name = a.name then none
  else some { db with actions := db.actions ++ [a] }

/-- The `for` loop of `initializeDefaultActions`: names already among
`existingNames` (the names of the *approved* actions fetched at entry)
are skipped; others are inserted as approved defaults. A failed insert
throws; the surrounding `try/catch` swallows the error, so the loop
stops there with all earlier inserts kept. -/
def initLoop (db : DB) (names existingNames : List String)
    (mkId : String → String) (now : Int) : DB :=
  match names with
  | [] => db
  | n :: rest =>
    if n ∈ existingNames then initLoop db rest existingNames mkId now
    else
      match insertActionRow db ⟨mkId n, n, true, true, now⟩ with
      | none => db
      | some db' => initLoop db' rest existingNames mkId now

/-- Embeds `initializeDefaultActions` from `routes.ts`: fetch
`storage.getActions(true)` — the **approved** actions — take their
names, and insert any default name not among them. -/
def initializeDefaultActions (db : DB) (mkId : String → String)
    (now : Int) : DB :=
  initLoop db defaultActionNames ((getActions db true).map Action.name)
    mkId now

/-- Observation: number of persisted votes carrying a given
(postId, actionId, voterIdentity) triple. -/
def countTriple (db : DB) (p a ip : String) : Nat :=
  db.votes.countP (fun v =>
    decide (v.postId = p ∧ v.actionId = a ∧ v.ipAddress = ip))

/-- Repeated `incrementRateLimit` calls, one per recorded event, each
with its own fresh row id and event time. -/
def recordAll (db : DB) (ip cat : String) : List (String × Int) → DB
  | [] => db
  | e :: rest => recordAll (incrementRateLimit db ip cat e.1 e.2) ip cat rest

/-- Observation: some post row carries the id and is approved. -/
def approvedPostExists (db : DB) (pid : String) : Prop :=
  ∃ p ∈ db.posts, p.id = pid ∧ p.status = Status.approved

/-- Observation: some action row carries the id and is approved. -/
def approvedActionExists (db : DB) (aid : String) : Prop :=
  ∃ a ∈ db.actions, a.id = aid ∧ a.approved = true

/-- The fields of a vote row other than the generated id and the
timestamp. -/
def voteContent (v : Vote) : String × String × String :=
  (v.postId, v.actionId, v.ipAddress)

/-- Concrete store for C1: one approved post, one approved default
action, no votes yet. -/
def dbC1 : DB :=
  ⟨[⟨"p1", "Ada", "film", "img", Status.approved, 0⟩],
   [⟨"a1", "love", true, true, 0⟩], [], []⟩

/-- The C1 store after two `createVote` calls with the identical
(postId, actionId, voterIdentity) triple. -/
def dbC1after : DB :=
  (createVote (createVote dbC1 ⟨"p1", "a1", "1.2.3.4"⟩ "v1" 10).2
    ⟨"p1", "a1", "1.2.3.4"⟩ "v2" 20).2

/-- Concrete empty store for the C2 witness. -/
def dbC2w : DB := ⟨[], [], [], []⟩

/-- Two recorded events, both inside the 60-minute window that ends at
time 100000. -/
def eventsC2w : List (String × Int) := [("r1", 60000), ("r2", 90000)]

/-- Concrete store for the C3 witness: one approved post with two votes
for the same action. -/
def dbC3w : DB :=
  ⟨[⟨"p1", "Ada", "film", "img", Status.approved, 0⟩],
   [⟨"a1", "love", true, true, 0⟩],
   [⟨"v1", "p1", "a1", "1.1.1.1", 10⟩,
    ⟨"v2", "p1", "a1", "2.2.2.2", 20⟩], []⟩

/-- The action row used in the C3 witness. -/
def loveC3 : Action := ⟨"a1", "love", true, true, 0⟩

/-- Concrete store for the C4 witness: two approved posts with distinct
vote counts for one action. -/
def dbC4w : DB :=
  ⟨[⟨"p1", "Ada", "film", "img", Status.approved, 0⟩,
    ⟨"p2", "Bob", "film", "img", Status.approved, 0⟩],
   [⟨"a1", "love", true, true, 0⟩],
   [⟨"v1", "p1", "a1", "1.1.1.1", 10⟩,
    ⟨"v2", "p1", "a1", "2.2.2.2", 20⟩,
    ⟨"v3", "p2", "a1", "1.1.1.1", 30⟩], []⟩

/-- Concrete store for the C5 witness: one approved post with one
recent vote. -/
def dbC5w : DB :=
  ⟨[⟨"p1", "Ada", "film", "img", Status.approved, 0⟩],
   [⟨"a1", "love", true, true, 0⟩],
   [⟨"v1", "p1", "a1", "1.1.1.1", 50⟩], []⟩

/-- An unapproved action that nevertheless has a recorded vote. -/
def slapC6 : Action := ⟨"a2", "slap", false, true, 0⟩

/-- Concrete store for C6: an approved post whose only vote is for the
unapproved action `slapC6`. -/
def dbC6 : DB :=
  ⟨[⟨"p1", "Ada", "film", "img", Status.approved, 0⟩], [slapC6],
   [⟨"v1", "p1", "a2", "1.1.1.1", 10⟩], []⟩

/-- Concrete store for the C7 witness: one approved post with votes. -/
def dbC7w : DB :=
  ⟨[⟨"p1", "Ada", "film", "img", Status.approved, 0⟩],
   [⟨"a1", "love", true, true, 0⟩],
   [⟨"v1", "p1", "a1", "1.1.1.1", 10⟩,
    ⟨"v2", "p1", "a1", "2.2.2.2", 20⟩], []⟩

/-- Id supply for concrete runs of the startup routine. -/
def mkIdC8 : String → String := fun n => "id-" ++ n

/-- Concrete catalog for the C8 counterexample: the name slap exists
but is not approved. -/
def dbC8bad : DB := ⟨[], [⟨"x0", "slap", false, true, 0⟩], [], []⟩

/-- Concrete empty store for the C8 witness. -/
def dbC8w : DB := ⟨[], [], [], []⟩

/-- Concrete store for the C9 witness: an approved post and an approved
action with distinct ids. -/
def dbC9w : DB :=
  ⟨[⟨"p1", "Ada", "film", "img", Status.approved, 0⟩],
   [⟨"a1", "love", true, true, 0⟩], [], []⟩

/-- Concrete store for the C10 witness. -/
def dbC10w : DB :=
  ⟨[⟨"p1", "Ada", "film", "img", Status.approved, 0⟩],
   [⟨"a1", "love", true, true, 0⟩], [], []⟩

theorem mem_sortedGroups {α : Type} (l : List α) (f : α → Nat)
    (x : α × Nat) :
    (x ∈ List.insertionSort countDescRel
        ((l.map (fun a => (a, f a))).filter (fun y => 0 < y.2))) ↔
      x.1 ∈ l ∧ x.2 = f x.1 ∧ 0 < x.2 := by
  rw [(List.perm_insertionSort _ _).mem_iff, List.mem_filter, List.mem_map]
  constructor
  · rintro ⟨⟨a, ha, rfl⟩, h2⟩
    exact ⟨ha, rfl, by simpa using h2⟩
  · rintro ⟨h1, h2, h3⟩
    refine ⟨⟨x.1, h1, Prod.ext rfl h2.symm⟩, by simpa using h3⟩

theorem mem_getPostVotes (db : DB) (p : String) (x : Action × Nat) :
    x ∈ getPostVotes db p ↔
      x.1 ∈ db.actions ∧ x.2 = countVotesFor db p x.1.id ∧ 0 < x.2 :=
  mem_sortedGroups db.actions (fun a => countVotesFor db p a.id) x

theorem mem_rankedByAction (db : DB) (aid : String) (x : Post × Nat) :
    x ∈ rankedByAction db aid ↔
      x.1 ∈ db.posts ∧ x.1.status = Status.approved ∧
        x.2 = countVotesFor db x.1.id aid ∧ 0 < x.2 := by
  have h := mem_sortedGroups
    (db.posts.filter (fun p => decide (p.status = Status.approved)))
    (fun p => countVotesFor db p.id aid) x
  constructor
  · intro hx
    rcases h.mp hx with ⟨h1, h2, h3⟩
    rcases List.mem_filter.mp h1 with ⟨hp, hs⟩
    exact ⟨hp, by simpa using hs, h2, h3⟩
  · rintro ⟨h1, h2, h3, h4⟩
    exact h.mpr ⟨List.mem_filter.mpr ⟨h1, by simpa using h2⟩, h3, h4⟩

theorem mem_rankedTrending (db : DB) (cutoff : Int) (x : Post × Nat) :
    x ∈ rankedTrending db cutoff ↔
      x.1 ∈ db.posts ∧ x.1.status = Status.approved ∧
        x.2 = countRecentVotes db x.1.id cutoff ∧ 0 < x.2 := by
  have h := mem_sortedGroups
    (db.posts.filter (fun p => decide (p.status = Status.approved)))
    (fun p => countRecentVotes db p.id cutoff) x
  constructor
  · intro hx
    rcases h.mp hx with ⟨h1, h2, h3⟩
    rcases List.mem_filter.mp h1 with ⟨hp, hs⟩
    exact ⟨hp, by simpa using hs, h2, h3⟩
  · rintro ⟨h1, h2, h3, h4⟩
    exact h.mpr ⟨List.mem_filter.mpr ⟨h1, by simpa using h2⟩, h3, h4⟩

theorem sorted_sortedGroups_take {α : Type} (l : List (α × Nat)) (n : Nat) :
    List.Sorted countDescRel ((List.insertionSort countDescRel l).take n) :=
  List.Pairwise.sublist (List.take_sublist n _)
    (List.sorted_insertionSort _ _)

theorem take_prefix_succ {α : Type} (l : List α) (n : Nat) :
    l.take n <+: l.take (n + 1) := by
  have h := List.take_prefix n (l.take (n + 1))
  rwa [List.take_take, min_eq_left (Nat.le_succ n)] at h

/-- C1 is refuted on the code: in a concrete store, two `createVote`
calls with the identical (postId, actionId, voterIdentity) triple leave
two persisted votes with that triple, not one — `createVote` neither
errors nor toggles, and the `votes_unique_idx` index on the triple is
not unique. -/
theorem C1_counterexample :
    countTriple dbC1after "p1" "a1" "1.2.3.4" = 2 ∧
      ¬countTriple dbC1after "p1" "a1" "1.2.3.4" = 1 := by
  exact ⟨by decide, by decide⟩

/-- C1 (amended): two `createVote` calls with an identical
(postId, actionId, voterIdentity) triple always add two persisted
votes carrying that triple — the vote store accepts duplicates (open
mode), so it can hold several votes with the same post, action and
voter identity. -/
theorem C1_duplicates_accumulate (db : DB) (p a ip id1 id2 : String)
    (t1 t2 : Int) :
    countTriple
        (createVote (createVote db ⟨p, a, ip⟩ id1 t1).2
          ⟨p, a, ip⟩ id2 t2).2 p a ip =
      countTriple db p a ip + 2 := by
  simp [countTriple, createVote, List.countP_append]

/-- C1 instance of the amended statement at a concrete store. -/
theorem C1_witness :
    countTriple
        (createVote (createVote dbC1 ⟨"p1", "a1", "1.2.3.4"⟩ "v1" 10).2
          ⟨"p1", "a1", "1.2.3.4"⟩ "v2" 20).2 "p1" "a1" "1.2.3.4" =
      countTriple dbC1 "p1" "a1" "1.2.3.4" + 2 :=
  C1_duplicates_accumulate dbC1 "p1" "a1" "1.2.3.4" "v1" "v2" 10 20

/-- C3: a pair (a, c) is reported by `getPostVotes(p)` exactly when a
is a catalog action, c is the number of Vote rows with postId = p and
actionId = a.id, and c is positive — reported counts equal row counts
and zero-vote actions are omitted. The read is a pure function of the
store, so reading twice without intervening writes gives the same
result. -/
theorem C3_postVoteCounts_are_row_counts (db : DB) (p : String)
    (x : Action × Nat) :
    (x ∈ getPostVotes db p ↔
      x.1 ∈ db.actions ∧
        x.2 = (db.votes.filter (fun v =>
          decide (v.postId = p ∧ v.actionId = x.1.id))).length ∧
        0 < x.2)
    ∧ getPostVotes db p = getPostVotes db p := by
  refine ⟨?_, rfl⟩
  rw [mem_getPostVotes]
  simp only [countVotesFor, List.countP_eq_length_filter]

/-- C3 instance at a concrete store with two votes for one action. -/
theorem C3_witness :
    ((loveC3, 2) ∈ getPostVotes dbC3w "p1" ↔
      loveC3 ∈ dbC3w.actions ∧
        2 = (dbC3w.votes.filter (fun v =>
          decide (v.postId = "p1" ∧ v.actionId = loveC3.id))).length ∧
        0 < 2) :=
  (C3_postVoteCounts_are_row_counts dbC3w "p1" (loveC3, 2)).1

/-- C7: after `deletePost(p)` — whose schema-level `ON DELETE cascade`
removes the vote rows of the post — no vote with postId = p remains,
and `getPostVotes(p)` returns the empty mapping. -/
theorem C7_deletePost_cascades (db : DB) (p : String) :
    (∀ v ∈ (deletePost db p).votes, ¬v.postId = p)
    ∧ getPostVotes (deletePost db p) p = [] := by
  constructor
  · intro v hv
    have h := (List.mem_filter.mp hv).2
    simpa using h
  · unfold getPostVotes
    have hcount : ∀ a : Action,
        countVotesFor (deletePost db p) p a.id = 0 := by
      intro a
      rw [countVotesFor, List.countP_eq_zero]
      intro v hv
      have hne : ¬v.postId = p := by
        have h := (List.mem_filter.mp hv).2
        simpa using h
      simp [hne]
    have hfil : (((deletePost db p).actions.map
        (fun a => (a, countVotesFor (deletePost db p) p a.id))).filter
          (fun x => 0 < x.2)) = [] := by
      rw [List.filter_eq_nil_iff]
      intro y hy
      rcases List.mem_map.mp hy with ⟨a, _, rfl⟩
      simp [hcount a]
    rw [hfil]
    rfl

/-- C7 instance at a concrete store whose post has two votes. -/
theorem C7_witness :
    (∀ v ∈ (deletePost dbC7w "p1").votes, ¬v.postId = "p1")
    ∧ getPostVotes (deletePost dbC7w "p1") "p1" = [] :=
  C7_deletePost_cascades dbC7w "p1"

/-- C4: every leaderboard entry is an approved post annotated with the
number of Vote rows for it with the requested actionId, the entries are
sorted in descending order of that count, and the N-limited list is a
prefix of the (N+1)-limited list. -/
theorem C4_leaderboard_approved_sorted_take (db : DB) (aid : String)
    (N : Nat) :
    (∀ x ∈ getLeaderboard db aid N,
        x.1.status = Status.approved ∧
          x.2 = (db.votes.filter (fun v =>
            decide (v.postId = x.1.id ∧ v.actionId = aid))).length)
    ∧ List.Sorted countDescRel (getLeaderboard db aid N)
    ∧ getLeaderboard db aid N <+: getLeaderboard db aid (N + 1) := by
  refine ⟨?_, ?_, ?_⟩
  · intro x hx
    have hx2 : x ∈ rankedByAction db aid :=
      (List.take_prefix N (rankedByAction db aid)).mem hx
    rcases (mem_rankedByAction db aid x).mp hx2 with ⟨-, h2, h3, -⟩
    refine ⟨h2, ?_⟩
    rw [h3, countVotesFor, List.countP_eq_length_filter]
  · exact sorted_sortedGroups_take _ N
  · exact take_prefix_succ (rankedByAction db aid) N

/-- C4 instance at a concrete store with two ranked posts. -/
theorem C4_witness :
    List.Sorted countDescRel (getLeaderboard dbC4w "a1" 2) ∧
      getLeaderboard dbC4w "a1" 2 <+: getLeaderboard dbC4w "a1" 3 :=
  ⟨(C4_leaderboard_approved_sorted_take dbC4w "a1" 2).2.1,
    (C4_leaderboard_approved_sorted_take dbC4w "a1" 2).2.2⟩

/-- C5: the per-post count used by trending — votes of any action with
creation time at or after the cutoff — is monotone in the window (a
larger window never decreases it), and every trending entry is an
approved post annotated with its recent-vote count, listed in
descending order of that count. -/
theorem C5_trending_window_monotone (db : DB) (now W1 W2 W : Int)
    (limit : Nat) (p : String) (hW : W1 ≤ W2) :
    (countRecentVotes db p (now - W1 * 3600000) ≤
        countRecentVotes db p (now - W2 * 3600000))
    ∧ (∀ x ∈ getTrendingPosts db W limit now,
        x.1.status = Status.approved ∧
          x.2 = countRecentVotes db x.1.id (now - W * 3600000))
    ∧ List.Sorted countDescRel (getTrendingPosts db W limit now) := by
  refine ⟨?_, ?_, ?_⟩
  · apply List.countP_mono_left
    intro v _ h
    simp only [decide_eq_true_eq] at h ⊢
    have hc : W1 * 3600000 ≤ W2 * 3600000 :=
      mul_le_mul_of_nonneg_right hW (by norm_num)
    exact ⟨h.1, by omega⟩
  · intro x hx
    have hx2 : x ∈ rankedTrending db (now - W * 3600000) :=
      (List.take_prefix limit (rankedTrending db (now - W * 3600000))).mem hx
    rcases (mem_rankedTrending db (now - W * 3600000) x).mp hx2 with
      ⟨-, h2, h3, -⟩
    exact ⟨h2, h3⟩
  · exact sorted_sortedGroups_take _ limit

/-- C5 instance: window 1 hour versus 2 hours at a concrete store. -/
theorem C5_witness :
    (1 : Int) ≤ 2 ∧
      countRecentVotes dbC5w "p1" (100 - 1 * 3600000) ≤
        countRecentVotes dbC5w "p1" (100 - 2 * 3600000) :=
  ⟨by norm_num,
    (C5_trending_window_monotone dbC5w 100 1 2 24 10 "p1" (by norm_num)).1⟩

/-- C6 is refuted on the code: `getPostVotes` joins `actions` without
any filter on approval, so in a concrete store a vote for an unapproved
action appears as a key of the served mapping. -/
theorem C6_counterexample :
    getPostVotes dbC6 "p1" = [(slapC6, 1)] ∧ slapC6.approved = false := by
  exact ⟨by decide, by decide⟩

/-- C6 (amended): every action appearing as a key of `getPostVotes(p)`
exists in the action catalog (the inner join drops votes whose action
row is gone), but approval is not required: votes cast for an action
that is currently unapproved are still reflected in the served
counts. -/
theorem C6_keys_exist_in_catalog (db : DB) (p : String)
    (x : Action × Nat) (hx : x ∈ getPostVotes db p) : x.1 ∈ db.actions :=
  ((mem_getPostVotes db p x).mp hx).1

/-- C6 instance: the unapproved key of the counterexample store is a
catalog action. -/
theorem C6_witness :
    (slapC6, 1) ∈ getPostVotes dbC6 "p1" ∧ slapC6 ∈ dbC6.actions :=
  ⟨by decide, C6_keys_exist_in_catalog dbC6 "p1" (slapC6, 1) (by decide)⟩

theorem checkRateLimit_iff (db : DB) (ip cat : String) (limit : Nat)
    (W now : Int) :
    checkRateLimit db ip cat limit W now = true ↔
      inWindowEvents db ip cat W now < limit := by
  simp [checkRateLimit, inWindowEvents, List.countP_eq_length_filter]

theorem inWindowEvents_increment (db : DB) (ip cat id : String)
    (t W now : Int) :
    inWindowEvents (incrementRateLimit db ip cat id t) ip cat W now =
      inWindowEvents db ip cat W now +
        (if now - W * 60000 ≤ t then 1 else 0) := by
  simp only [inWindowEvents, incrementRateLimit, List.countP_append]
  by_cases h : now - W * 60000 ≤ t
  · have h2 : now ≤ t + W * 60000 := by omega
    simp [h, h2]
  · have h2 : ¬now ≤ t + W * 60000 := by omega
    simp [h, h2]

theorem inWindowEvents_recordAll (ip cat : String) (W now : Int)
    (events : List (String × Int)) :
    ∀ db : DB,
      inWindowEvents (recordAll db ip cat events) ip cat W now =
        inWindowEvents db ip cat W now +
          events.countP (fun e => decide (now - W * 60000 ≤ e.2)) := by
  induction events with
  | nil => intro db; simp [recordAll]
  | cons e rest ih =>
    intro db
    rw [recordAll, ih, inWindowEvents_increment, List.countP_cons]
    by_cases h : now - W * 60000 ≤ e.2
    · simp [h]
      omega
    · simp [h]

/-- C2: the rate limiter law. The admission check answers true exactly
when the in-window event count for (identity, category) is strictly
below the limit; each `incrementRateLimit` appends one row with count 1;
from a state with no in-window events, after N admitted-and-recorded
events inside the window the next check with limit N is denied; and at
any later time by which all the recorded events have left the window,
admission resumes. -/
theorem C2_rate_limiter_law (db : DB) (ip cat : String) (N : Nat)
    (W now : Int) (events : List (String × Int))
    (h0 : inWindowEvents db ip cat W now = 0) (hN : 0 < N)
    (hlen : events.length = N)
    (hin : ∀ e ∈ events, now - W * 60000 ≤ e.2) :
    (∀ (db2 : DB) (limit2 : Nat) (W2 now2 : Int),
        checkRateLimit db2 ip cat limit2 W2 now2 = true ↔
          inWindowEvents db2 ip cat W2 now2 < limit2)
    ∧ (∀ (id : String) (t : Int),
        (incrementRateLimit db ip cat id t).rateLimits =
          db.rateLimits ++ [⟨id, ip, cat, 1, t⟩])
    ∧ checkRateLimit (recordAll db ip cat events) ip cat N W now = false
    ∧ (∀ now2 : Int, now ≤ now2 →
        (∀ e ∈ events, e.2 < now2 - W * 60000) →
        checkRateLimit (recordAll db ip cat events) ip cat N W now2 = true) := by
  have hiff := checkRateLimit_iff
  refine ⟨fun db2 l2 W2 n2 => hiff db2 ip cat l2 W2 n2,
    fun id t => rfl, ?_, ?_⟩
  · have hcnt : events.countP (fun e => decide (now - W * 60000 ≤ e.2)) =
        events.length :=
      List.countP_eq_length.mpr (fun e he => by simpa using hin e he)
    have hval : inWindowEvents (recordAll db ip cat events) ip cat W now =
        N := by
      rw [inWindowEvents_recordAll ip cat W now events db, h0, hcnt, hlen]
      omega
    cases hb : checkRateLimit (recordAll db ip cat events) ip cat N W now
    · rfl
    · exfalso
      have hlt := (hiff _ ip cat N W now).mp hb
      omega
  · intro now2 hle hout
    have hcnt0 : events.countP (fun e => decide (now2 - W * 60000 ≤ e.2)) =
        0 := by
      rw [List.countP_eq_zero]
      intro e he
      simpa using not_le.mpr (by have := hout e he; omega)
    have hbase : inWindowEvents db ip cat W now2 = 0 := by
      rw [inWindowEvents, List.countP_eq_zero]
      rw [inWindowEvents, List.countP_eq_zero] at h0
      intro r hr
      have h1 := h0 r hr
      simp only [decide_eq_true_eq, not_and, not_le] at h1 ⊢
      intro ha hb
      have h2 := h1 ha hb
      omega
    have hval : inWindowEvents (recordAll db ip cat events) ip cat W now2 =
        0 := by
      rw [inWindowEvents_recordAll ip cat W now2 events db, hbase, hcnt0]
    exact (hiff _ ip cat N W now2).mpr (by omega)

/-- C2 instance: limit 2, window 60 minutes, two recorded events; the
third check at the same instant is denied. -/
theorem C2_witness :
    inWindowEvents dbC2w "1.1.1.1" "post" 60 100000 = 0 ∧ 0 < 2 ∧
      checkRateLimit (recordAll dbC2w "1.1.1.1" "post" eventsC2w)
        "1.1.1.1" "post" 2 60 100000 = false :=
  ⟨by decide, by decide,
    (C2_rate_limiter_law dbC2w "1.1.1.1" "post" 2 60 100000 eventsC2w
      (by decide) (by decide) (by decide) (by decide)).2.2.1⟩

theorem mem_getActions (db : DB) (b : Bool) (a : Action) :
    a ∈ getActions db b ↔ a ∈ db.actions ∧ a.approved = b := by
  rw [getActions, (List.perm_insertionSort _ _).mem_iff, List.mem_filter]
  simp

theorem approvedName_iff (db : DB) (n : String) :
    n ∈ (getActions db true).map Action.name ↔
      ∃ a ∈ db.actions, a.approved = true ∧ a.name = n := by
  rw [List.mem_map]
  constructor
  · rintro ⟨a, ha, rfl⟩
    rcases (mem_getActions db true a).mp ha with ⟨h1, h2⟩
    exact ⟨a, h1, h2, rfl⟩
  · rintro ⟨a, h1, h2, rfl⟩
    exact ⟨a, (mem_getActions db true a).mpr ⟨h1, h2⟩, rfl⟩

theorem initLoop_actions_extend (names : List String)
    (ex : List String) (mkId : String → String) (now : Int) :
    ∀ db : DB, db.actions <+: (initLoop db names ex mkId now).actions := by
  induction names with
  | nil => intro db; exact List.prefix_refl _
  | cons n rest ih =>
    intro db
    rw [initLoop]
    by_cases hm : n ∈ ex
    · rw [if_pos hm]
      exact ih db
    · rw [if_neg hm]
      unfold insertActionRow
      by_cases hc : ∃ b ∈ db.actions,
          b.name = (⟨mkId n, n, true, true, now⟩ : Action).name
      · rw [if_pos hc]
      · rw [if_neg hc]
        exact List.IsPrefix.trans ⟨[⟨mkId n, n, true, true, now⟩], rfl⟩
          (ih { db with actions := db.actions ++ [⟨mkId n, n, true, true, now⟩] })

theorem initLoop_ensures (names : List String) :
    ∀ (db : DB) (ex : List String) (mkId : String → String) (now : Int),
      names.Nodup →
      (∀ n ∈ names, n ∈ ex →
        ∃ a ∈ db.actions, a.name = n ∧ a.approved = true) →
      (∀ n ∈ names, n ∉ ex → ∀ a ∈ db.actions, a.name ≠ n) →
      ∀ n ∈ names, ∃ a ∈ (initLoop db names ex mkId now).actions,
        a.name = n ∧ a.approved = true := by
  induction names with
  | nil =>
    intro db ex mkId now _ _ _ n hn
    cases hn
  | cons m rest ih =>
    intro db ex mkId now hnd hex hnew n hn
    rw [initLoop]
    by_cases hm : m ∈ ex
    · rw [if_pos hm]
      rcases List.mem_cons.mp hn with rfl | hn2
      · rcases hex n (List.mem_cons_self n rest) hm with ⟨a, ha, h1, h2⟩
        exact ⟨a, (initLoop_actions_extend rest ex mkId now db).mem ha, h1, h2⟩
      · exact ih db ex mkId now hnd.of_cons
          (fun k hk => hex k (List.mem_cons_of_mem m hk))
          (fun k hk => hnew k (List.mem_cons_of_mem m hk)) n hn2
    · rw [if_neg hm]
      unfold insertActionRow
      have hnone : ¬∃ b ∈ db.actions,
          b.name = (⟨mkId m, m, true, true, now⟩ : Action).name := by
        rintro ⟨b, hb, hbname⟩
        exact hnew m (List.mem_cons_self m rest) hm b hb (by simpa using hbname)
      rw [if_neg hnone]
      rcases List.mem_cons.mp hn with rfl | hn2
      · refine ⟨⟨mkId n, n, true, true, now⟩, ?_, rfl, rfl⟩
        apply (initLoop_actions_extend rest ex mkId now _).mem
        simp
      · apply ih _ ex mkId now hnd.of_cons ?_ ?_ n hn2
        · intro k hk hkex
          rcases hex k (List.mem_cons_of_mem m hk) hkex with ⟨a, ha, h1, h2⟩
          exact ⟨a, by simp [ha], h1, h2⟩
        · intro k hk hkex a ha
          have ha1 : a ∈ db.actions ∨ a = ⟨mkId m, m, true, true, now⟩ := by
            simpa using ha
          rcases ha1 with ha2 | hEq
          · exact hnew k (List.mem_cons_of_mem m hk) hkex a ha2
          · subst hEq
            intro hcontra
            have hmk : m = k := hcontra
            have hmrest : m ∉ rest := (List.nodup_cons.mp hnd).1
            exact hmrest (hmk ▸ hk)

theorem initLoop_skip_all (names : List String) :
    ∀ (db : DB) (ex : List String) (mkId : String → String) (now : Int),
      (∀ n ∈ names, n ∈ ex) → initLoop db names ex mkId now = db := by
  induction names with
  | nil => intro db ex mkId now _; rfl
  | cons m rest ih =>
    intro db ex mkId now h
    rw [initLoop, if_pos (h m (List.mem_cons_self m rest))]
    exact ih db ex mkId now (fun n hn => h n (List.mem_cons_of_mem m hn))

/-- C8 is refuted on the code: starting from a catalog in which the
name slap exists but is unapproved, the routine fetches only approved
names, so it tries to re-insert slap; the name-unique constraint makes
the insert throw, the catch aborts the loop, and the run changes
nothing — slap stays unapproved and hug is never created. -/
theorem C8_counterexample :
    initializeDefaultActions dbC8bad mkIdC8 5 = dbC8bad ∧
      (¬∃ a ∈ (initializeDefaultActions dbC8bad mkIdC8 5).actions,
        a.name = "hug") ∧
      ¬∃ a ∈ (initializeDefaultActions dbC8bad mkIdC8 5).actions,
        a.name = "slap" ∧ a.approved = true := by
  exact ⟨by decide, by decide, by decide⟩

/-- C8 (amended): from every starting state in which each
default-named action is approved, the startup routine leaves each of
the five default names existing and approved, and running it again
from the resulting state changes nothing. -/
theorem C8_init_ensures_defaults_idempotent (db : DB)
    (mkId : String → String) (now : Int)
    (H : ∀ a ∈ db.actions, a.name ∈ defaultActionNames →
      a.approved = true) :
    (∀ n ∈ defaultActionNames,
        ∃ a ∈ (initializeDefaultActions db mkId now).actions,
          a.name = n ∧ a.approved = true)
    ∧ ∀ (mkId2 : String → String) (now2 : Int),
        initializeDefaultActions (initializeDefaultActions db mkId now)
          mkId2 now2 = initializeDefaultActions db mkId now := by
  have hens : ∀ n ∈ defaultActionNames,
      ∃ a ∈ (initializeDefaultActions db mkId now).actions,
        a.name = n ∧ a.approved = true := by
    apply initLoop_ensures defaultActionNames db
      ((getActions db true).map Action.name) mkId now (by decide)
    · intro n _ hex
      rcases (approvedName_iff db n).mp hex with ⟨a, ha, happ, hname⟩
      exact ⟨a, ha, hname, happ⟩
    · intro n hn hex a ha hname
      exact hex ((approvedName_iff db n).mpr
        ⟨a, ha, H a ha (hname ▸ hn), hname⟩)
  refine ⟨hens, ?_⟩
  intro mkId2 now2
  apply initLoop_skip_all
  intro n hn
  rcases hens n hn with ⟨a, ha, hname, happ⟩
  exact (approvedName_iff _ n).mpr ⟨a, ha, happ, hname⟩

/-- C8 instance: running the routine on an empty catalog creates the
five defaults approved. -/
theorem C8_witness :
    (∀ a ∈ dbC8w.actions, a.name ∈ defaultActionNames →
      a.approved = true) ∧
      ∀ n ∈ defaultActionNames,
        ∃ a ∈ (initializeDefaultActions dbC8w mkIdC8 0).actions,
          a.name = n ∧ a.approved = true :=
  ⟨by decide,
    (C8_init_ensures_defaults_idempotent dbC8w mkIdC8 0 (by decide)).1⟩

theorem approvedPost_getPostById (db : DB) (pid : String)
    (hp : (db.posts.map Post.id).Nodup) :
    approvedPostExists db pid ↔
      ∃ q, getPostById db pid = some q ∧ q.status = Status.approved := by
  constructor
  · rintro ⟨p, hpmem, hpid, hps⟩
    cases hfp : getPostById db pid with
    | none =>
      exfalso
      rw [getPostById, List.find?_eq_none] at hfp
      exact absurd hpid (by simpa using hfp p hpmem)
    | some q =>
      have hqmem : q ∈ db.posts := List.mem_of_find?_eq_some hfp
      have hqid : q.id = pid := by simpa using List.find?_some hfp
      have hpq : p = q :=
        List.inj_on_of_nodup_map hp hpmem hqmem (by rw [hpid, hqid])
      exact ⟨q, rfl, hpq ▸ hps⟩
  · rintro ⟨q, hfq, hqs⟩
    exact ⟨q, List.mem_of_find?_eq_some hfq,
      by simpa using List.find?_some hfq, hqs⟩

theorem approvedAction_getActionById (db : DB) (aid : String)
    (ha : (db.actions.map Action.id).Nodup) :
    approvedActionExists db aid ↔
      ∃ b, getActionById db aid = some b ∧ b.approved = true := by
  constructor
  · rintro ⟨a, hamem, haid, hap⟩
    cases hfa : getActionById db aid with
    | none =>
      exfalso
      rw [getActionById, List.find?_eq_none] at hfa
      exact absurd haid (by simpa using hfa a hamem)
    | some b =>
      have hbmem : b ∈ db.actions := List.mem_of_find?_eq_some hfa
      have hbid : b.id = aid := by simpa using List.find?_some hfa
      have hab : a = b :=
        List.inj_on_of_nodup_map ha hamem hbmem (by rw [haid, hbid])
      exact ⟨b, rfl, hab ▸ hap⟩
  · rintro ⟨b, hfb, hbp⟩
    exact ⟨b, List.mem_of_find?_eq_some hfb,
      by simpa using List.find?_some hfb, hbp⟩

/-- C9: after captcha passes, a vote request answers the not-found
error (404) exactly when the referenced post is missing or unapproved,
or the referenced action is missing or unapproved; the post-side
message is identical for missing and unapproved posts, the action-side
message identical for missing and unapproved actions; otherwise a vote
record is created, appended and returned. -/
theorem C9_vote_route_not_found_iff (db : DB) (pid aid ip did vid : String)
    (now : Int) (hp : (db.posts.map Post.id).Nodup)
    (ha : (db.actions.map Action.id).Nodup) :
    ((∃ m, (submitVote db pid aid ip did vid now).1 =
        VoteOutcome.notFound m) ↔
      ¬approvedPostExists db pid ∨ ¬approvedActionExists db aid)
    ∧ (¬approvedPostExists db pid →
        submitVote db pid aid ip did vid now =
          (VoteOutcome.notFound postNotFoundMsg, db))
    ∧ (approvedPostExists db pid → ¬approvedActionExists db aid →
        submitVote db pid aid ip did vid now =
          (VoteOutcome.notFound actionNotFoundMsg, db))
    ∧ (approvedPostExists db pid → approvedActionExists db aid →
        submitVote db pid aid ip did vid now =
          (VoteOutcome.created ⟨vid, pid, aid, ip, now⟩,
            { db with votes := db.votes ++ [⟨vid, pid, aid, ip, now⟩] })) := by
  by_cases hP : approvedPostExists db pid
  · by_cases hA : approvedActionExists db aid
    · rcases (approvedPost_getPostById db pid hp).mp hP with ⟨q, hfq, hqs⟩
      rcases (approvedAction_getActionById db aid ha).mp hA with ⟨b, hfb, hbp⟩
      have hM : submitVote db pid aid ip did vid now =
          (VoteOutcome.created ⟨vid, pid, aid, ip, now⟩,
            { db with votes := db.votes ++ [⟨vid, pid, aid, ip, now⟩] }) := by
        simp [submitVote, hfq, hfb, hqs, hbp, createVote, VotePayload.toRow]
      refine ⟨?_, ?_, ?_, ?_⟩
      · rw [hM]
        simp [hP, hA]
      · intro hc; exact absurd hP hc
      · intro _ hc; exact absurd hA hc
      · intro _ _; exact hM
    · rcases (approvedPost_getPostById db pid hp).mp hP with ⟨q, hfq, hqs⟩
      have hbNone : ∀ b, getActionById db aid = some b → b.approved = false := by
        intro b hfb
        cases hval : b.approved
        · rfl
        · exact absurd ((approvedAction_getActionById db aid ha).mpr
            ⟨b, hfb, hval⟩) hA
      have hM : submitVote db pid aid ip did vid now =
          (VoteOutcome.notFound actionNotFoundMsg, db) := by
        cases hfb : getActionById db aid with
        | none => simp [submitVote, hfq, hqs, hfb]
        | some b =>
          have hb := hbNone b hfb
          simp [submitVote, hfq, hqs, hfb, hb]
      refine ⟨?_, ?_, ?_, ?_⟩
      · rw [hM]
        simp [hA]
      · intro hc; exact absurd hP hc
      · intro _ _; exact hM
      · intro _ hc; exact absurd hc hA
  · have hqNone : ∀ q, getPostById db pid = some q →
        ¬q.status = Status.approved := by
      intro q hfq hqs
      exact hP ((approvedPost_getPostById db pid hp).mpr ⟨q, hfq, hqs⟩)
    have hM : submitVote db pid aid ip did vid now =
        (VoteOutcome.notFound postNotFoundMsg, db) := by
      cases hfq : getPostById db pid with
      | none => simp [submitVote, hfq]
      | some q =>
        have hq := hqNone q hfq
        simp [submitVote, hfq, hq]
    refine ⟨?_, ?_, ?_, ?_⟩
    · rw [hM]
      simp [hP]
    · intro _; exact hM
    · intro hc; exact absurd hc hP
    · intro hc; exact absurd hc hP

/-- C9 instance: with an approved post and an approved action the
route creates and returns the vote row. -/
theorem C9_witness :
    (dbC9w.posts.map Post.id).Nodup ∧ (dbC9w.actions.map Action.id).Nodup ∧
      (approvedPostExists dbC9w "p1" → approvedActionExists dbC9w "a1" →
        submitVote dbC9w "p1" "a1" "9.9.9.9" "dev" "v9" 7 =
          (VoteOutcome.created ⟨"v9", "p1", "a1", "9.9.9.9", 7⟩,
            { dbC9w with
              votes := dbC9w.votes ++ [⟨"v9", "p1", "a1", "9.9.9.9", 7⟩] })) :=
  ⟨by decide, by decide,
    (C9_vote_route_not_found_iff dbC9w "p1" "a1" "9.9.9.9" "dev" "v9" 7
      (by decide) (by decide)).2.2.2⟩

theorem submitVote_created (db : DB) (pid aid ip did vid : String)
    (now : Int) (v : Vote) (db2 : DB)
    (h : submitVote db pid aid ip did vid now = (VoteOutcome.created v, db2)) :
    v = ⟨vid, pid, aid, ip, now⟩ ∧
      db2 = { db with votes := db.votes ++ [⟨vid, pid, aid, ip, now⟩] } := by
  unfold submitVote at h
  cases hfq : getPostById db pid with
  | none =>
    rw [hfq] at h
    simp at h
  | some q =>
    rw [hfq] at h
    by_cases hqs : q.status = Status.approved
    · cases hfb : getActionById db aid with
      | none =>
        rw [hfb] at h
        simp [hqs] at h
      | some b =>
        rw [hfb] at h
        by_cases hbp : b.approved = true
        · simp [hqs, hbp, createVote, VotePayload.toRow] at h
          exact ⟨h.1.symm, h.2.symm⟩
        · simp [hqs, hbp] at h
    · simp [hqs] at h

/-- C10: the persisted vote is independent of the device token. With
the same environment the route behaves identically for any two device
ids, and whenever two requests that agree on postId, actionId and
resolved address both create votes, the stored rows agree on every
persisted column other than the generated id and timestamp — the vote
row retains only postId, actionId and ipAddress, and the device id is
used in no duplicate or rate-limit decision (the route makes none). -/
theorem C10_vote_independent_of_device (db : DB) (pid aid ip : String)
    (d1 d2 vid : String) (now : Int) :
    (submitVote db pid aid ip d1 vid now =
        submitVote db pid aid ip d2 vid now)
    ∧ (∀ (vid1 vid2 : String) (t1 t2 : Int) (v1 v2 : Vote) (db1 db2 : DB),
        submitVote db pid aid ip d1 vid1 t1 = (VoteOutcome.created v1, db1) →
        submitVote db pid aid ip d2 vid2 t2 = (VoteOutcome.created v2, db2) →
        voteContent v1 = voteContent v2 ∧
          db1.votes.map voteContent = db2.votes.map voteContent) := by
  refine ⟨rfl, ?_⟩
  intro vid1 vid2 t1 t2 v1 v2 db1 db2 h1 h2
  rcases submitVote_created db pid aid ip d1 vid1 t1 v1 db1 h1 with ⟨hv1, hd1⟩
  rcases submitVote_created db pid aid ip d2 vid2 t2 v2 db2 h2 with ⟨hv2, hd2⟩
  subst hv1; subst hv2; subst hd1; subst hd2
  simp [voteContent]

/-- C10 instance: two requests differing only in the device cookie
produce identical outcomes at a concrete store. -/
theorem C10_witness :
    submitVote dbC10w "p1" "a1" "8.8.8.8" "devA" "v1" 3 =
      submitVote dbC10w "p1" "a1" "8.8.8.8" "devB" "v1" 3 :=
  (C10_vote_independent_of_device dbC10w "p1" "a1" "8.8.8.8"
    "devA" "devB" "v1" 3).1

end CelebrityVoting
